import Mathlib

/-
  Verification development for the MagnetBoard crawl subsystem.

  The Python sources are embedded shallowly:
  * pure parsing helpers (src/new.py, class ListPageParser) become Lean
    functions over a `Soup` structure that records exactly the observations
    the code makes on a BeautifulSoup document (get_text, find_all,
    select/select_one results);
  * regular-expression scans are translated into explicit left-to-right
    scanning functions with the same leftmost-match / greedy semantics;
  * stateful orchestration (src/new.py NewCrawlerController,
    src/new_crawler_manager.py NewCrawlerManager,
    src/scheduler_manager.py SchedulerManager) becomes explicit state
    passing, with the outcomes of external I/O (HTTP fetches, browser runs,
    cron library calls) supplied by oracle parameters;
  * Python truthiness of strings/lists is modelled explicitly where the
    code relies on it.
-/

namespace MagnetBoard

/- ==================== Python string primitives ==================== -/

/-- Model of Python `str.lower` restricted to ASCII case mapping (the
characters the embedded code lowers are ASCII letters; CJK characters are
unaffected by `lower` in Python as well). -/
def pyLowerL (l : List Char) : List Char := l.map Char.toLower

/-- Model of Python `str.upper` restricted to ASCII case mapping. -/
def pyUpperL (l : List Char) : List Char := l.map Char.toUpper

def pyLower (s : String) : String := String.mk (pyLowerL s.data)

/-- Whitespace test modelling Python `\s` / `str.strip` (ASCII whitespace
plus the no-break and ideographic spaces, the only non-ASCII whitespace
appearing in forum text). -/
def isPySpace (c : Char) : Bool :=
  c == ' ' || c == '\t' || c == '\n' || c == '\r' ||
  c.val == 11 || c.val == 12 || c.val == 0xA0 || c.val == 0x3000

/-- Python `str.strip()`. -/
def pyStripL (l : List Char) : List Char :=
  ((l.dropWhile isPySpace).reverse.dropWhile isPySpace).reverse

def pyStrip (s : String) : String := String.mk (pyStripL s.data)

/-- Python substring test `sub in hay` (on char lists). -/
def hasSubList (sub : List Char) : List Char → Bool
  | [] => sub == []
  | c :: rest => sub.isPrefixOf (c :: rest) || hasSubList sub rest

/-- Python substring test `sub in hay`. -/
def strContainsSub (hay sub : String) : Bool := hasSubList sub.data hay.data

/-- Python `str.startswith`. -/
def pyStartsWith (s pre : String) : Bool := pre.data.isPrefixOf s.data

/-- Python `str.endswith`. -/
def pyEndsWith (s suf : String) : Bool := suf.data.isSuffixOf s.data

/-- Python `str.split(sep)` for a one-character separator. -/
def splitOnChar (sep : Char) : List Char → List (List Char)
  | [] => [[]]
  | c :: rest =>
    let r := splitOnChar sep rest
    if c == sep then [] :: r
    else
      match r with
      | h :: t => (c :: h) :: t
      | [] => [[c]]

def pySplit (s : String) (sep : Char) : List String :=
  (splitOnChar sep s.data).map String.mk

/-- Python `a or b` on optional strings: `None` and `""` are falsy. -/
def pyOrStr (a b : Option String) : Option String :=
  match a with
  | some s => if s == "" then b else some s
  | none => b

/-- Python `str.replace(pat, repl)`: non-overlapping, left to right.
Fuel-based structural recursion; `fuel = length of the input` suffices
because every recursive call consumes at least one character. -/
def replaceAllAux (pat repl : List Char) : Nat → List Char → List Char
  | 0, l => l
  | _ + 1, [] => []
  | fuel + 1, c :: rest =>
    if pat ≠ [] && pat.isPrefixOf (c :: rest) then
      repl ++ replaceAllAux pat repl fuel (List.drop pat.length (c :: rest))
    else
      c :: replaceAllAux pat repl fuel rest

def pyReplace (s pat repl : String) : String :=
  String.mk (replaceAllAux pat.data repl.data s.data.length s.data)

/-- Leftmost-match scan: `re.search` tries every start position from the
left and returns the first position where the pattern matcher succeeds. -/
def scanFirst {α : Type} (m : List Char → Option α) : List Char → Option α
  | [] => m []
  | c :: rest =>
    match m (c :: rest) with
    | some r => some r
    | none => scanFirst m rest

/-- Does the predicate hold at some start position (used for pure
`re.search`-existence tests)? -/
def anyPos (p : List Char → Bool) : List Char → Bool
  | [] => p []
  | c :: rest => p (c :: rest) || anyPos p rest

/-- Match a literal pattern as a plain prefix, returning the remainder. -/
def stripPre (pat l : List Char) : Option (List Char) :=
  if pat.isPrefixOf l then some (l.drop pat.length) else none

/-- Case-insensitive literal prefix match, returning the matched original
characters and the remainder (`re.IGNORECASE` literals). -/
def ciPrefixMatch : List Char → List Char → Option (List Char × List Char)
  | [], l => some ([], l)
  | _ :: _, [] => none
  | p :: ps, c :: cs =>
    if c.toLower == p.toLower then
      match ciPrefixMatch ps cs with
      | some (m, r) => some (c :: m, r)
      | none => none
    else none

/- ==================== magnet-URI scan ====================
   src/new.py, ListPageParser.extract_magnet_links:
   re.findall(r'magnet:\?xt=urn:btih:[0-9A-Fa-f]\x7b40,\x7d', text, re.IGNORECASE) -/

def isHexChar (c : Char) : Bool :=
  c.isDigit || ('a' ≤ c && c ≤ 'f') || ('A' ≤ c && c ≤ 'F')

def magnetLit : List Char := "magnet:?xt=urn:btih:".data

/-- Try to match the magnet-URI pattern at the current position: the
literal scheme part (case-insensitively, as `re.IGNORECASE` applies to the
literal as well) followed by a maximal (greedy) run of at least 40 hex
digits. Returns the matched characters and the total matched length. -/
def magnetAt (l : List Char) : Option (List Char × Nat) :=
  match ciPrefixMatch magnetLit l with
  | none => none
  | some (m, rest) =>
    let hex := rest.takeWhile isHexChar
    if hex.length ≥ 40 then some (m ++ hex, m.length + hex.length) else none

/-- `re.findall` for the magnet pattern: non-overlapping leftmost matches,
resuming after each match. Fuel-based; each step consumes at least one
character, so fuel = input length is enough. -/
def findallMagnetsAux : Nat → List Char → List (List Char)
  | 0, _ => []
  | _ + 1, [] => []
  | fuel + 1, c :: rest =>
    match magnetAt (c :: rest) with
    | some (m, k) => m :: findallMagnetsAux fuel (List.drop k (c :: rest))
    | none => findallMagnetsAux fuel rest

def findallMagnets (s : String) : List String :=
  (findallMagnetsAux s.data.length s.data).map String.mk

/-- The text contains a magnet URI matching the canonical grammar at some
position (the existence counterpart of the findall scan). -/
def containsMagnet : List Char → Bool
  | [] => false
  | c :: rest => (magnetAt (c :: rest)).isSome || containsMagnet rest

/- ==================== the parsed-document model ====================
   BeautifulSoup is an external library; a `Soup` records exactly the
   observations the parser code makes on one parsed detail page.  Element
   lists appear in document order, as BeautifulSoup returns them. -/

/-- An `<img>` element with the four attributes the code reads
(`src`, `data-src`, `zoomfile`, `file`); `none` = attribute absent. -/
structure ImgTag where
  src : Option String
  dataSrc : Option String
  zoomfile : Option String
  file : Option String
deriving DecidableEq

/-- An `<a>` element with an `href` attribute, plus its visible text. -/
structure ATag where
  href : String
  text : String
deriving DecidableEq

/-- One parsed detail page.
* `text` — `soup.get_text()`;
* `anchors` — `soup.find_all('a', href=True)`;
* `titleSelects` — for each selector of `extract_thread_title`
  (`h1#thread_subject`, `h1.thread_subject`, `h1`, `.thread_subject`,
  `title`, in that order), `get_text(strip=True)` of `select_one`'s result,
  `none` when no element matches;
* `contentSelects` — likewise for the selectors of
  `extract_thread_content`;
* `authorSelects` — likewise for the selectors of `extract_author`;
* `imgSelects` — for each selector of `extract_images` step 1
  (`td.t_f img`, `div.t_msgfont img`, …), the list of matched `<img>`
  elements;
* `attachElems` — for each element returned by
  `select('td.t_f, div.t_msgfont, div.postmessage')`, its
  `find_all('a', href=True)` list. -/
structure Soup where
  text : String
  anchors : List ATag
  titleSelects : List (Option String)
  contentSelects : List (Option String)
  authorSelects : List (Option String)
  imgSelects : List (List ImgTag)
  attachElems : List (List ATag)
deriving DecidableEq

/- ==================== extract_magnet_links ====================
   src/new.py lines 450-470. -/

/-- Model of Python `list(set(xs))`.  The iteration order of a CPython set
is unspecified (hash-based); we fix the canonical first-occurrence order.
All properties proved about the result are order-independent. -/
def pySetList (l : List String) : List String := l.dedup

/-- src/new.py `ListPageParser.extract_magnet_links`: regex scan of the
page text, plus every anchor whose href starts with the magnet scheme,
then `list(set(...))`. -/
def extract_magnet_links (soup : Soup) : List String :=
  let textMagnets := findallMagnets soup.text
  let anchorMagnets :=
    (soup.anchors.filter (fun a => pyStartsWith a.href "magnet:")).map (fun a => a.href)
  pySetList (textMagnets ++ anchorMagnets)

/- ==================== title / content extraction ====================
   src/new.py lines 412-448. -/

/-- The `for selector in selectors: element = select_one(...);
if element: t = get_text(strip=True); if t: return t` pattern: first
present element with non-empty stripped text wins. -/
def firstTruthyText : List (Option String) → String
  | [] => ""
  | none :: rest => firstTruthyText rest
  | some t :: rest => if t == "" then firstTruthyText rest else t

def extract_thread_title (soup : Soup) : String := firstTruthyText soup.titleSelects

def extract_thread_content (soup : Soup) : String := firstTruthyText soup.contentSelects

/- ==================== check_uncensored ====================
   src/new.py lines 560-590. -/

/-- Value part of the censorship patterns: after the label (and colon),
`\s*` skips whitespace greedily and then `(无码|有码)` must match.  No
backtracking into `\s*` can help, because neither alternative starts with
a whitespace character. -/
def censorValueAt (l : List Char) : Option String :=
  let t := l.dropWhile isPySpace
  if "无码".data.isPrefixOf t then some "无码"
  else if "有码".data.isPrefixOf t then some "有码"
  else none

/-- Match one censorship pattern at the current position: the literal
label, then (for the colon-class patterns) one colon character from
`cols`, then whitespace, then the captured value. -/
def censorAt (lab cols : List Char) (l : List Char) : Option String :=
  match stripPre lab l with
  | none => none
  | some r =>
    match cols with
    | [] => censorValueAt r
    | _ =>
      match r with
      | [] => none
      | c :: r2 => if cols.contains c then censorValueAt r2 else none

def censorCols : List Char := ['：', ':']

/-- The structured-label loop of `check_uncensored`: patterns tried in the
source order, each with `re.search` (leftmost match); the first pattern
that matches anywhere decides, yielding the captured group. -/
def censoredStatusSearch (text : List Char) : Option String :=
  match scanFirst (censorAt "【是否有码】：".data []) text with
  | some v => some v
  | none =>
    match scanFirst (censorAt "【有码】：".data []) text with
    | some v => some v
    | none =>
      match scanFirst (censorAt "是否有码".data censorCols) text with
      | some v => some v
      | none => scanFirst (censorAt "有码".data censorCols) text

def uncensoredKeywords : List String :=
  ["无码", "無碼", "uncensored", "无修正", "無修正",
   "流出", "破解", "破解版", "破解版流出"]

/-- src/new.py `ListPageParser.check_uncensored`: structured label first
(exact value comparison with 无码), keyword fallback only when no
structured pattern matches anywhere. -/
def check_uncensored (title content : String) : Bool :=
  let text := title ++ " " ++ content
  match censoredStatusSearch text.data with
  | some status => status == "无码"
  | none =>
    let textLower := pyLower text
    uncensoredKeywords.any (fun kw => strContainsSub textLower (pyLower kw))

/- ==================== extract_code ====================
   src/new.py lines 472-487.  Three patterns tried in order with
   `re.findall(..., re.IGNORECASE)`; the first pattern with a match wins
   and its leftmost match is returned upper-cased. -/

/-- Exactly `n` ASCII letters as a prefix (possibly followed by more). -/
def takeLetters (n : Nat) (l : List Char) : Option (List Char × List Char) :=
  let pre := l.take n
  if pre.length == n && pre.all Char.isAlpha then some (pre, l.drop n) else none

/-- Greedy `[0-9]\x7blo,hi\x7d`: a maximal digit run of length ≥ lo,
capped at hi (the regex takes hi digits when available, else the run). -/
def greedyDigits (lo hi : Nat) (l : List Char) : Option (List Char) :=
  let d := l.takeWhile Char.isDigit
  if d.length ≥ lo then some (d.take hi) else none

/-- Letters-hyphen-digits code pattern at a fixed letter count `a`. -/
def codeHyphenLen (a dlo dhi : Nat) (l : List Char) : Option (List Char) :=
  match takeLetters a l with
  | none => none
  | some (ls, r) =>
    match r with
    | '-' :: r2 =>
      match greedyDigits dlo dhi r2 with
      | some ds => some (ls ++ '-' :: ds)
      | none => none
    | _ => none

/-- Letters-digits code pattern (no hyphen) at a fixed letter count. -/
def codePlainLen (a dlo dhi : Nat) (l : List Char) : Option (List Char) :=
  match takeLetters a l with
  | none => none
  | some (ls, r) =>
    match greedyDigits dlo dhi r with
    | some ds => some (ls ++ ds)
    | none => none

/-- Greedy letter-count order 4, 3, 2 (at most one count can succeed,
since a shorter count leaves a letter where the hyphen/digit must be). -/
def codeP1At (l : List Char) : Option (List Char) :=
  match codeHyphenLen 4 3 4 l with
  | some m => some m
  | none =>
    match codeHyphenLen 3 3 4 l with
    | some m => some m
    | none => codeHyphenLen 2 3 4 l

def codeP2At (l : List Char) : Option (List Char) :=
  match codePlainLen 4 3 4 l with
  | some m => some m
  | none =>
    match codePlainLen 3 3 4 l with
    | some m => some m
    | none => codePlainLen 2 3 4 l

def codeP3At (l : List Char) : Option (List Char) :=
  match codeHyphenLen 4 2 3 l with
  | some m => some m
  | none =>
    match codeHyphenLen 3 2 3 l with
    | some m => some m
    | none => codeHyphenLen 2 2 3 l

/-- src/new.py `ListPageParser.extract_code` over `title + " " + content`. -/
def extract_code (title content : String) : String :=
  let text := (title ++ " " ++ content).data
  match scanFirst codeP1At text with
  | some m => String.mk (pyUpperL m)
  | none =>
    match scanFirst codeP2At text with
    | some m => String.mk (pyUpperL m)
    | none =>
      match scanFirst codeP3At text with
      | some m => String.mk (pyUpperL m)
      | none => ""

/- ==================== extract_author ====================
   src/new.py lines 489-531. -/

/-- Characters admissible in the actress capture group `[^\n\r【】]+`. -/
def authorAllowed (c : Char) : Bool :=
  !(c == '\n' || c == '\r' || c == '【' || c == '】')

/-- CJK unified ideograph range used by the cleanup regex. -/
def isCJK (c : Char) : Bool := 0x4E00 ≤ c.val && c.val ≤ 0x9FFF

/-- Approximation of Python's unicode `\w`: ASCII alphanumerics and
underscore, CJK ideographs, and the kana block (the scripts occurring in
performer names on the site). -/
def isWordChar (c : Char) : Bool :=
  c.isAlphanum || c == '_' || isCJK c || (0x3040 ≤ c.val && c.val ≤ 0x30FF)

/-- Characters kept by `re.sub(r'[^一-鿿\w\s]', '', ...)`. -/
def keepAuthorChar (c : Char) : Bool := isCJK c || isWordChar c || isPySpace c

/-- Match one author pattern at the current position.  After the label
(and optional colon), `\s*` is greedy; if no admissible character follows
the whitespace run, the regex backtracks exactly one whitespace character
into the capture group (which must itself be admissible, i.e. not
`\n`/`\r`); such a group is whitespace-only and is later discarded by
`strip()`.  Returns the captured group of the match. -/
def authorGroupAt (lab cols : List Char) (l : List Char) : Option (List Char) :=
  match stripPre lab l with
  | none => none
  | some r0 =>
    let body := fun (r : List Char) =>
      let w := r.takeWhile isPySpace
      let t := r.drop w.length
      let cap := t.takeWhile authorAllowed
      if cap ≠ [] then some cap
      else
        match w.reverse with
        | wl :: _ => if authorAllowed wl then some [wl] else none
        | [] => none
    match cols with
    | [] => body r0
    | _ =>
      match r0 with
      | [] => none
      | c :: r2 => if cols.contains c then body r2 else none

/-- The six author patterns of the source, in order: label and (for the
bare-label ones) the colon class `[：:]`. -/
def authorPatterns : List (List Char × List Char) :=
  [("【出演女优】：".data, []), ("【女优】：".data, []), ("【演员】：".data, []),
   ("出演女优".data, censorCols), ("女优".data, censorCols), ("演员".data, censorCols)]

/-- Pattern loop of `extract_author`: `re.search` each pattern; when one
matches, strip and clean the group; accept it only when more than one
character remains, otherwise move to the next pattern. -/
def authorFromPatterns (text : List Char) : List (List Char × List Char) → String
  | [] => ""
  | (lab, cols) :: rest =>
    match scanFirst (authorGroupAt lab cols) text with
    | none => authorFromPatterns text rest
    | some g =>
      let a := pyStripL ((pyStripL g).filter keepAuthorChar)
      if a.length > 1 then String.mk a else authorFromPatterns text rest

/-- `content_text` selection in `extract_author`: the first selector with
a present element is taken (`break`), even if its text is empty. -/
def firstElemText : List (Option String) → String
  | [] => ""
  | none :: rest => firstElemText rest
  | some t :: _ => t

/-- src/new.py `ListPageParser.extract_author`. -/
def extract_author (soup : Soup) : String :=
  let content_text := firstElemText soup.authorSelects
  if content_text == "" then ""
  else authorFromPatterns content_text.data authorPatterns

/- ==================== extract_size ====================
   src/new.py lines 533-558. -/

/-- `(\d+(?:\.\d+)?)`: greedy digits, optional fraction (taken only when a
digit follows the dot; giving the fraction back up never enables the unit
to match, since the unit starts with a letter). -/
def numberAt (l : List Char) : Option (List Char × List Char) :=
  let d := l.takeWhile Char.isDigit
  if d == [] then none
  else
    let r := l.drop d.length
    match r with
    | '.' :: r2 =>
      let f := r2.takeWhile Char.isDigit
      if f == [] then some (d, r) else some (d ++ '.' :: f, r2.drop f.length)
    | _ => some (d, r)

/-- `(GB|MB|KB|G|M|K)` with `re.IGNORECASE`, alternatives tried in source
order; returns the matched original characters. -/
def unitAt (l : List Char) : Option (List Char) :=
  match ciPrefixMatch "GB".data l with
  | some (m, _) => some m
  | none =>
    match ciPrefixMatch "MB".data l with
    | some (m, _) => some m
    | none =>
      match ciPrefixMatch "KB".data l with
      | some (m, _) => some m
      | none =>
        match ciPrefixMatch "G".data l with
        | some (m, _) => some m
        | none =>
          match ciPrefixMatch "M".data l with
          | some (m, _) => some m
          | none =>
            match ciPrefixMatch "K".data l with
            | some (m, _) => some m
            | none => none

/-- Number, whitespace, unit — the common tail of all size patterns
(the trailing `B?` of the bare pattern never affects the groups, because
the two-letter alternatives are tried first). -/
def numUnitAt (l : List Char) : Option (List Char × List Char) :=
  match numberAt l with
  | none => none
  | some (num, r) =>
    match unitAt (r.dropWhile isPySpace) with
    | none => none
    | some u => some (num, u)

/-- One labelled size pattern at the current position. -/
def sizeLabelAt (lab cols : List Char) (l : List Char) : Option (List Char × List Char) :=
  match stripPre lab l with
  | none => none
  | some r0 =>
    match cols with
    | [] => numUnitAt (r0.dropWhile isPySpace)
    | _ =>
      match r0 with
      | [] => none
      | c :: r2 => if cols.contains c then numUnitAt (r2.dropWhile isPySpace) else none

/-- Unit normalisation of `extract_size`; the regex guarantees the
upper-cased unit is one of G/GB/M/MB/K/KB, so the final branch is K/KB. -/
def normalizeSize (num u : List Char) : String :=
  let uu := String.mk (pyUpperL u)
  if uu == "G" || uu == "GB" then String.mk num ++ "GB"
  else if uu == "M" || uu == "MB" then String.mk num ++ "MB"
  else String.mk num ++ "KB"

/-- src/new.py `ListPageParser.extract_size`: five patterns in order, the
first pattern with a match anywhere contributes its leftmost match. -/
def extract_size (content : String) : String :=
  let text := content.data
  match scanFirst (sizeLabelAt "【影片容量】：".data []) text with
  | some (n, u) => normalizeSize n u
  | none =>
    match scanFirst (sizeLabelAt "【容量】：".data []) text with
    | some (n, u) => normalizeSize n u
    | none =>
      match scanFirst (sizeLabelAt "影片容量".data censorCols) text with
      | some (n, u) => normalizeSize n u
      | none =>
        match scanFirst (sizeLabelAt "容量".data censorCols) text with
        | some (n, u) => normalizeSize n u
        | none =>
          match scanFirst numUnitAt text with
          | some (n, u) => normalizeSize n u
          | none => ""

/- ==================== extract_images ====================
   src/new.py lines 592-665. -/

structure ImagesResult where
  cover_images : List String
  all_images : List String
deriving DecidableEq

/-- `src = img.get('src') or img.get('data-src') or img.get('zoomfile')
or img.get('file')` followed by `if src:` — empty strings are falsy. -/
def imgSrcAttr (img : ImgTag) : Option String :=
  match pyOrStr img.src (pyOrStr img.dataSrc (pyOrStr img.zoomfile img.file)) with
  | some s => if s == "" then none else some s
  | none => none

/-- Relative-URL resolution of `extract_images`. -/
def normalizeUrl (src : String) : String :=
  if pyStartsWith src "http" then src
  else if pyStartsWith src "/" then "https://sehuatang.org" ++ src
  else "https://sehuatang.org/" ++ src

/-- The jpg-extension plus blocklist filter of `extract_images` step 1
(some substring tests run on the raw URL, others on its lower-casing,
exactly as in the source). -/
def imgUrlOK (src : String) : Bool :=
  let low := pyLower src
  (pyEndsWith low ".jpg" || pyEndsWith low ".jpeg") &&
  !(strContainsSub src "none.gif") &&
  !(strContainsSub src "placeholder") &&
  !(strContainsSub src "static/image/common") &&
  !(strContainsSub src "avatar") &&
  !(strContainsSub src "logo") &&
  !(strContainsSub src "icon") &&
  !(strContainsSub src "btn") &&
  !(strContainsSub src "torrent.gif") &&
  !(strContainsSub low "ad") &&
  !(strContainsSub low "banner") &&
  !(strContainsSub low "sponsor") &&
  !(strContainsSub low "ads") &&
  !(strContainsSub low "advertisement") &&
  !(strContainsSub low "promo") &&
  !(strContainsSub low "commercial") &&
  !(strContainsSub low "tuiguang") &&
  !(strContainsSub low "guanggao")

/-- Step 1 body: normalise, filter, append when not already collected. -/
def addImg (acc : List String) (img : ImgTag) : List String :=
  match imgSrcAttr img with
  | none => acc
  | some src0 =>
    let src := normalizeUrl src0
    if imgUrlOK src && !(acc.contains src) then acc ++ [src] else acc

def collectImgs (acc : List String) (sels : List (List ImgTag)) : List String :=
  sels.foldl (fun a sel => sel.foldl addImg a) acc

/-- Step 2 body: attachment links ending in .jpg/.jpeg. -/
def addAttach (acc : List String) (a : ATag) : List String :=
  let low := pyLower a.href
  if pyEndsWith low ".jpg" || pyEndsWith low ".jpeg" then
    let href := normalizeUrl a.href
    if !(acc.contains href) then acc ++ [href] else acc
  else acc

def collectAttach (acc : List String) (elems : List (List ATag)) : List String :=
  elems.foldl (fun a el => el.foldl addAttach a) acc

/-- `re.search(r'[A-Z]\x7b2,4\x7d-\d\x7b3,4\x7d', url, re.IGNORECASE)` as
an existence test: some position starts 2–4 ASCII letters, a hyphen, and
at least 3 digits (a 4th digit only lengthens the match). -/
def codePatternHere (l : List Char) : Bool :=
  [2, 3, 4].any fun a =>
    (match takeLetters a l with
     | some (_, r) =>
       (match r with
        | '-' :: r2 => ((r2.take 3).length == 3 && (r2.take 3).all Char.isDigit)
        | _ => false)
     | none => false)

def has_code_pattern (s : String) : Bool := anyPos codePatternHere s.data

/-- Step 3 loop: walk `all_images` in order, appending matches not already
in the cover list; returns the final cover list given the part built so
far. -/
def coverLoop (cover : List String) : List String → List String
  | [] => cover
  | u :: rest =>
    coverLoop (if has_code_pattern u && !(cover.contains u) then cover ++ [u] else cover) rest

/-- src/new.py `ListPageParser.extract_images`: all images from the six
content selectors, then attachment links, then cover classification
capped at two. -/
def extract_images (soup : Soup) : ImagesResult :=
  let all_images := collectAttach (collectImgs [] soup.imgSelects) soup.attachElems
  let cover_images := coverLoop [] all_images
  { cover_images := cover_images.take 2, all_images := all_images }

/- ==================== parse_thread_detail ====================
   src/new.py lines 361-410. -/

/-- The outcome of `client.get(thread_url)` as seen by the parser: either
the request raised, or a response with a status code and parsed body. -/
inductive FetchOutcome where
  | exn : FetchOutcome
  | ok : Nat → Soup → FetchOutcome

structure ThreadDetail where
  title : String
  content : String
  magnets : List String
  code : String
  author : String
  size : String
  is_uncensored : Bool
  images : ImagesResult
  url : String
deriving DecidableEq

/-- src/new.py `ListPageParser.parse_thread_detail`: non-200 responses and
exceptions yield `None`; magnets are extracted and the thread is dropped
(`return None`) when the list is empty; otherwise the record is built. -/
def parse_thread_detail (fetched : FetchOutcome) (thread_url : String) : Option ThreadDetail :=
  match fetched with
  | FetchOutcome.exn => none
  | FetchOutcome.ok status soup =>
    if status ≠ 200 then none
    else
      let title := extract_thread_title soup
      let content := extract_thread_content soup
      let magnets := extract_magnet_links soup
      let code := extract_code title content
      let author := extract_author soup
      let size := extract_size content
      let is_uncensored := check_uncensored title content
      if magnets.isEmpty then none
      else
        some { title := title, content := content, magnets := magnets,
               code := code, author := author, size := size,
               is_uncensored := is_uncensored,
               images := extract_images soup, url := thread_url }

/- ==================== list-page helpers ====================
   src/new.py lines 302-313 and 346-359. -/

structure ThreadLink where
  tid : String
  title : String
  url : String
deriving DecidableEq

/-- src/new.py `ListPageParser.deduplicate_threads`: first occurrence per
tid wins; a falsy (empty) tid is dropped. -/
def deduplicate_threads_aux (seen : List String) : List ThreadLink → List ThreadLink
  | [] => []
  | t :: rest =>
    if t.tid ≠ "" && !(seen.contains t.tid) then
      t :: deduplicate_threads_aux (t.tid :: seen) rest
    else
      deduplicate_threads_aux seen rest

def deduplicate_threads (threads : List ThreadLink) : List ThreadLink :=
  deduplicate_threads_aux [] threads

/-- src/new.py `ListPageParser.filter_threads_by_keywords`: keep threads
whose lower-cased title contains some keyword (lower-cased); an empty
keyword list filters nothing. -/
def filter_threads_by_keywords (threads : List ThreadLink) (keywords : List String) : List ThreadLink :=
  if keywords.isEmpty then threads
  else
    threads.filter fun t =>
      keywords.any fun kw => strContainsSub (pyLower t.title) (pyLower kw)

/- ==================== NewCrawlerController ====================
   src/new.py lines 674-987.  The controller's externally observable
   state is its `is_running` flag; the outcomes of the awaited external
   operations are supplied by an oracle:
   * `createClient` — whether `create_client` raised;
   * `stopBeforePage k` / `stopBeforeDetail i` — whether `stop_crawler`
     set `is_running = False` before the cooperative check of iteration
     `k` / `i`;
   * `pageResult k` — the outcome of `parse_list_page` for page `k`
     (`error` = the per-page `try` body raised; the loop continues);
   * `detailFetch i` — the HTTP outcome fed to `parse_thread_detail` for
     the `i`-th surviving link.
   `save_to_database` and `save_results` catch their own exceptions and do
   not touch the controller state, so they need no oracle entry. -/

structure CtrlState where
  is_running : Bool
deriving DecidableEq

structure CtrlOracle where
  createClient : Except Unit Unit
  stopBeforePage : Nat → Bool
  pageResult : Nat → Except Unit (List ThreadLink)
  stopBeforeDetail : Nat → Bool
  detailFetch : Nat → FetchOutcome

/-- The list-page loop of `crawl_single_theme` (lines 763-790): for each
page, check the stop flag, then fetch and parse inside a per-page
`try/except` that continues on failure.  Returns the flag value after the
loop and the accumulated links. -/
def pageLoop (o : CtrlOracle) : List Nat → Bool → List ThreadLink → Bool × List ThreadLink
  | [], running, acc => (running, acc)
  | p :: rest, running, acc =>
    let running2 := running && !(o.stopBeforePage p)
    if !running2 then (running2, acc)
    else
      match o.pageResult p with
      | Except.error _ => pageLoop o rest running2 acc
      | Except.ok ts => pageLoop o rest running2 (acc ++ ts)

/-- The detail loop `crawl_thread_details` (lines 868-921): per-thread
stop check, skip on empty url, parse the detail page, skip when no detail
or no magnets, otherwise merge and collect (the database write swallows
its own errors and the record is collected regardless). -/
def detailLoop (o : CtrlOracle) (i : Nat) :
    List ThreadLink → Bool → List (ThreadLink × ThreadDetail) → Bool × List (ThreadLink × ThreadDetail)
  | [], running, acc => (running, acc)
  | t :: rest, running, acc =>
    let running2 := running && !(o.stopBeforeDetail i)
    if !running2 then (running2, acc)
    else if t.url == "" then detailLoop o (i + 1) rest running2 acc
    else
      match parse_thread_detail (o.detailFetch i) t.url with
      | none => detailLoop o (i + 1) rest running2 acc
      | some d =>
        if d.magnets.isEmpty then detailLoop o (i + 1) rest running2 acc
        else detailLoop o (i + 1) rest running2 (acc ++ [(t, d)])

/-- src/new.py `NewCrawlerController.crawl_single_theme` (lines 737-813).
A call while running returns `[]` immediately without touching state;
otherwise the flag is set, the body runs under `try/except/finally`, and
the `finally` block always clears the flag (`delay_between_pages` only
times sleeps and is omitted). -/
def crawl_single_theme (o : CtrlOracle) (s : CtrlState)
    (_fid : String) (start_page end_page : Nat) (keywords : List String) :
    List (ThreadLink × ThreadDetail) × CtrlState :=
  if s.is_running then ([], s)
  else
    match o.createClient with
    | Except.error _ => ([], { is_running := false })
    | Except.ok _ =>
      let pages := List.range' start_page (end_page + 1 - start_page)
      let pl := pageLoop o pages true []
      let unique_threads := deduplicate_threads pl.2
      let unique_threads2 :=
        if keywords.isEmpty then unique_threads
        else filter_threads_by_keywords unique_threads keywords
      let dl := detailLoop o 0 unique_threads2 pl.1 []
      (dl.2, { is_running := false })

/- ==================== NewCrawlerManager ====================
   src/new_crawler_manager.py. -/

/-- What happened on one iteration of the `test_connection_with_retry`
loop: `ensure_fresh_cookies` returned False (early failure return), an
exception reached the per-attempt `except`, or `test_connection` was
executed with the given result. -/
inductive ConnAttemptOutcome where
  | cookieFail : ConnAttemptOutcome
  | setupExn : ConnAttemptOutcome
  | probe : Bool → ConnAttemptOutcome
deriving DecidableEq

/-- src/new_crawler_manager.py `test_connection_with_retry` (lines
170-217): `for attempt in range(max_cf_retries + 1)`.  The second
component counts executed connection checks (`test_connection` calls);
sleeps and cookie re-collection between attempts do not touch the
counted state. -/
def connRetryAux (o : Nat → ConnAttemptOutcome) (attempt : Nat) : Nat → Nat → Bool × Nat
  | 0, checks => (false, checks)
  | remaining + 1, checks =>
    match o attempt with
    | ConnAttemptOutcome.cookieFail => (false, checks)
    | ConnAttemptOutcome.setupExn => connRetryAux o (attempt + 1) remaining checks
    | ConnAttemptOutcome.probe true => (true, checks + 1)
    | ConnAttemptOutcome.probe false => connRetryAux o (attempt + 1) remaining (checks + 1)

def test_connection_with_retry (o : Nat → ConnAttemptOutcome) (max_cf_retries : Nat) : Bool × Nat :=
  connRetryAux o 0 (max_cf_retries + 1) 0

structure MgrState where
  is_running : Bool
deriving DecidableEq

/-- The result dict of `start_crawler`; the `data` payload is summarised
by the thread count. -/
structure MgrResult where
  success : Bool
  message : String
  count : Option Nat
deriving DecidableEq

/-- The externally visible operations `start_crawler` may launch. -/
inductive MgrEffect where
  | ensureCookies : MgrEffect
  | connTest : MgrEffect
  | crawlRun : MgrEffect
deriving DecidableEq

/-- Oracle for one `start_crawler` invocation: outcome of
`ensure_fresh_cookies`, of `test_connection_with_retry`, and of
`crawl_with_retry` (which returns the crawled threads; `error` means an
exception escaped to the outer `except`). -/
structure StartOracle where
  ensureCookies : Except Unit Bool
  connTest : Except Unit Bool
  crawl : Except Unit Nat

/-- src/new_crawler_manager.py `NewCrawlerManager.start_crawler` (lines
219-286).  When already running it returns the failure dict immediately,
leaving the state untouched and launching nothing; otherwise the flag is
set, the body runs, and the `finally` clears the flag (also on the early
`return`s inside the `try`). -/
def start_crawler (o : StartOracle) (s : MgrState)
    (_fid : String) (_start_page _end_page : Nat) (_keywords : List String) :
    MgrResult × MgrState × List MgrEffect :=
  if s.is_running then
    ({ success := false, message := "爬虫正在运行中", count := none }, s, [])
  else
    let fin : MgrState := { is_running := false }
    match o.ensureCookies with
    | Except.error _ =>
      ({ success := false, message := "爬取过程异常", count := none }, fin,
       [MgrEffect.ensureCookies])
    | Except.ok false =>
      ({ success := false, message := "无法获取有效cookies，启动失败", count := none }, fin,
       [MgrEffect.ensureCookies])
    | Except.ok true =>
      match o.connTest with
      | Except.error _ =>
        ({ success := false, message := "爬取过程异常", count := none }, fin,
         [MgrEffect.ensureCookies, MgrEffect.connTest])
      | Except.ok false =>
        ({ success := false, message := "连接失败，无法启动爬虫", count := none }, fin,
         [MgrEffect.ensureCookies, MgrEffect.connTest])
      | Except.ok true =>
        match o.crawl with
        | Except.error _ =>
          ({ success := false, message := "爬取过程异常", count := none }, fin,
           [MgrEffect.ensureCookies, MgrEffect.connTest, MgrEffect.crawlRun])
        | Except.ok n =>
          ({ success := true, message := "爬取完成，共 " ++ toString n ++ " 个帖子",
             count := some n }, fin,
           [MgrEffect.ensureCookies, MgrEffect.connTest, MgrEffect.crawlRun])

/- ==================== proxy selection ====================
   Crawler side: src/new.py `CrawlerHttpClient.__init__` / `create_client`
   (lines 22-75).  Downloader side: src/downloader_manager.py
   `_is_lan_address`, `_should_use_proxy`, `_get_proxies_for_request`
   (lines 33-125). -/

/-- Model of `urllib.parse.urlparse(url).hostname` for the URL shapes the
code handles: an optional scheme (letter followed by letters, digits,
`+`, `-`, `.`, up to a colon) is stripped; a netloc exists only after
`//` and runs to the first `/`, `?` or `#`; userinfo up to the last `@`
is dropped; a bracketed IPv6 literal keeps the bracket contents, any
other host is cut at the first colon (the port) and lower-cased; an empty
host is `None`. -/
def stripScheme (l : List Char) : List Char :=
  let pre := l.takeWhile (fun c => !(c == ':'))
  let schemeOK :=
    match pre with
    | [] => false
    | c0 :: restc =>
      c0.isAlpha && restc.all (fun c => c.isAlphanum || c == '+' || c == '-' || c == '.')
  match stripPre (pre ++ [':']) l with
  | some r => if schemeOK then r else l
  | none => l

def urlparse_hostname (url : String) : Option String :=
  let l := stripScheme url.data
  match stripPre "//".data l with
  | none => none
  | some afterSlashes =>
    let netloc := afterSlashes.takeWhile (fun c => !(c == '/' || c == '?' || c == '#'))
    let hostport := ((netloc.reverse.takeWhile (fun c => !(c == '@'))).reverse)
    let host :=
      match hostport with
      | '[' :: t => t.takeWhile (fun c => !(c == ']'))
      | _ => hostport.takeWhile (fun c => !(c == ':'))
    let h := pyLowerL host
    if h == [] then none else some (String.mk h)

/-- One octet of a dotted-quad IPv4 address, as `ipaddress` parses it:
1-3 ASCII digits, no leading zero, value at most 255. -/
def parseOctet (p : List Char) : Option Nat :=
  if p == [] then none
  else if !(p.all Char.isDigit) then none
  else if p.length > 3 then none
  else if p.length > 1 && p.head? == some '0' then none
  else
    let n := p.foldl (fun a c => a * 10 + (c.toNat - 48)) 0
    if n > 255 then none else some n

def parseIPv4 (h : List Char) : Option (Nat × Nat × Nat × Nat) :=
  match (splitOnChar '.' h).map parseOctet with
  | [some a, some b, some c, some d] => some (a, b, c, d)
  | _ => none

def ipv4_is_loopback (a : Nat) : Bool := a == 127

def ipv4_is_link_local (a b : Nat) : Bool := a == 169 && b == 254

def ipv4_is_multicast (a : Nat) : Bool := 224 ≤ a && a ≤ 239

/-- `IPv4Address.is_private`: membership in the private constant networks
of the `ipaddress` module (0/8, 10/8, 127/8, 169.254/16, 172.16/12,
192.0.0/29, 192.0.0.170/31, 192.0.2/24, 192.168/16, 198.18/15,
198.51.100/24, 203.0.113/24, 240/4 and 255.255.255.255). -/
def ipv4_is_private (a b c d : Nat) : Bool :=
  a == 0 || a == 10 || a == 127 || (a == 169 && b == 254) ||
  (a == 172 && 16 ≤ b && b ≤ 31) ||
  (a == 192 && b == 0 && c == 0 && d ≤ 7) ||
  (a == 192 && b == 0 && c == 0 && (d == 170 || d == 171)) ||
  (a == 192 && b == 0 && c == 2) || (a == 192 && b == 168) ||
  (a == 198 && (b == 18 || b == 19)) ||
  (a == 198 && b == 51 && c == 100) ||
  (a == 203 && b == 0 && c == 113) || 240 ≤ a

def localHostnames : List String :=
  ["localhost", "127.0.0.1", "::1", "local", "localdomain", "localhost.localdomain"]

/-- src/downloader_manager.py `DownloaderManager._is_lan_address`: strip a
port at the first colon (this also mangles bare IPv6 literals, so only
IPv4 ever reaches `ip_address` successfully), classify the IP, and on
parse failure fall back to the local-hostname set. -/
def is_lan_address (host : String) : Bool :=
  let h := host.data.takeWhile (fun c => !(c == ':'))
  match parseIPv4 h with
  | some (a, b, c, d) =>
    ipv4_is_private a b c d || ipv4_is_loopback a ||
    ipv4_is_link_local a b || ipv4_is_multicast a
  | none => localHostnames.contains (String.mk (pyLowerL h))

/-- The no-proxy list test of `_should_use_proxy`: the stored `no_proxy`
setting (default `localhost,127.0.0.1`) is split on commas, stripped and
lower-cased; an empty setting is falsy and checks nothing. -/
def in_no_proxy (np host : String) : Bool :=
  np ≠ "" &&
  ((pySplit np ',').map (fun s => String.mk (pyLowerL (pyStripL s.data)))).contains
    (String.mk (pyLowerL host.data))

/-- src/downloader_manager.py `DownloaderManager._should_use_proxy`,
with the stored `no_proxy` setting passed as `np` (settings live in an
external store read through `get_setting_value`). -/
def should_use_proxy (target_url : String) (np : String) : Bool :=
  match urlparse_hostname target_url with
  | none => false
  | some host =>
    if is_lan_address host then false
    else if in_no_proxy np host then false
    else true

/-- src/downloader_manager.py `DownloaderManager._get_proxies_for_request`:
per-request proxy selection (the `{'http': url, 'https': url}` dict is
summarised by its single proxy URL). -/
def get_proxies_for_request (proxy_config : Option String) (target_url np : String) :
    Option String :=
  match proxy_config with
  | none => none
  | some cfg => if should_use_proxy target_url np then some cfg else none

/-- src/new.py `CrawlerHttpClient.__init__` proxy resolution: the explicit
argument, else the `HTTP_PROXY`/`http_proxy` environment variables (empty
strings falsy), then the container-host alias substitution. -/
def resolve_crawler_proxy (explicit envUpper envLower : Option String) : Option String :=
  match pyOrStr explicit (pyOrStr envUpper envLower) with
  | none => none
  | some p =>
    if strContainsSub p "host.docker.internal" then
      some (pyReplace p "host.docker.internal" "192.168.31.85")
    else some p

/-- src/new.py `CrawlerHttpClient.create_client` proxy mounting:
`proxies=self.proxy if self.proxy else None` — the resolved proxy is
attached to the whole `httpx.AsyncClient`. -/
def create_client_proxies (resolved : Option String) : Option String :=
  match resolved with
  | some p => if p == "" then none else some p
  | none => none

/-- Proxy actually used for a single request issued through the crawler's
client.  Modelled from httpx semantics: a client constructed with an
explicit `proxies=...` argument routes every request through that proxy
regardless of the target host (the `NO_PROXY`/environment bypass applies
only when no explicit proxies argument is given).  The request URL does
not influence the choice — there is no per-request bypass in
`CrawlerHttpClient`. -/
def crawler_request_proxy (clientProxies : Option String) (_url : String) : Option String :=
  clientProxies

/- ==================== SchedulerManager._calculate_next_run ====================
   src/scheduler_manager.py lines 141-150.  `pytz.timezone` and
   `croniter(...).get_next` are external libraries, supplied as oracle
   functions that either return a value or raise; datetimes are modelled
   as integer seconds, `timedelta(hours=1)` as 3600. -/

def calculate_next_run (tzdb : String → Except Unit Unit)
    (cronNext : String → Int → Except Unit Int)
    (now : Int) (cron_expression timezone : String) : Int :=
  match tzdb timezone with
  | Except.error _ => now + 3600
  | Except.ok _ =>
    match cronNext cron_expression now with
    | Except.error _ => now + 3600
    | Except.ok t => t

/- ==================== concrete inputs used by witnesses ==================== -/

/-- A detail page whose text holds the same btih hash twice, once in lower
and once in upper case. -/
def magnetLowerStr : String := "magnet:?xt=urn:btih:" ++ String.mk (List.replicate 40 'a')

def magnetUpperStr : String := "magnet:?xt=urn:btih:" ++ String.mk (List.replicate 40 'A')

def caseSoup : Soup where
  text := magnetLowerStr ++ " " ++ magnetUpperStr
  anchors := []
  titleSelects := [some "Case test"]
  contentSelects := [some "body"]
  authorSelects := []
  imgSelects := []
  attachElems := []

/-- A detail page with no magnet URI in the text and no magnet anchor. -/
def noMagnetSoup : Soup where
  text := "a plain page without links"
  anchors := [{ href := "https://sehuatang.org/forum-36-1.html", text := "next" }]
  titleSelects := [some "Some title"]
  contentSelects := [some "some content"]
  authorSelects := [some "some content"]
  imgSelects := []
  attachElems := []

/-- A controller oracle describing an uneventful empty crawl. -/
def quietCtrlOracle : CtrlOracle where
  createClient := Except.ok ()
  stopBeforePage := fun _ => false
  pageResult := fun _ => Except.ok []
  stopBeforeDetail := fun _ => false
  detailFetch := fun _ => FetchOutcome.exn

/-- A manager oracle describing a fully successful empty run. -/
def quietStartOracle : StartOracle where
  ensureCookies := Except.ok true
  connTest := Except.ok true
  crawl := Except.ok 0

/- ==================== helper lemmas ==================== -/

theorem findallMagnetsAux_nil (fuel : Nat) :
    ∀ l : List Char, containsMagnet l = false → findallMagnetsAux fuel l = [] := by
  induction fuel with
  | zero => intro l _; rfl
  | succ f ih =>
    intro l h
    cases l with
    | nil => rfl
    | cons c rest =>
      have h' : (magnetAt (c :: rest)).isSome = false ∧ containsMagnet rest = false := by
        have := h
        simp [containsMagnet] at this
        exact ⟨by simp [this.1], this.2⟩
      rw [findallMagnetsAux]
      cases hm : magnetAt (c :: rest) with
      | some p => rw [hm] at h'; simp at h'
      | none => exact ih rest h'.2

theorem findallMagnets_nil (s : String) (h : containsMagnet s.data = false) :
    findallMagnets s = [] := by
  unfold findallMagnets
  rw [findallMagnetsAux_nil s.data.length s.data h]
  rfl

/-- `extract_magnet_links` is empty when the text scan finds nothing and
no anchor href starts with the magnet scheme. -/
theorem extract_magnet_links_nil (soup : Soup)
    (hm : containsMagnet soup.text.data = false)
    (ha : ∀ a ∈ soup.anchors, pyStartsWith a.href "magnet:" = false) :
    extract_magnet_links soup = [] := by
  unfold extract_magnet_links pySetList
  rw [findallMagnets_nil soup.text hm]
  have hf : soup.anchors.filter (fun a => pyStartsWith a.href "magnet:") = [] := by
    rw [List.filter_eq_nil_iff]
    intro a hmem
    simp [ha a hmem]
  rw [hf]
  rfl

/-- The cover loop only ever appends a selection of the walked list: the
final cover list is the initial one followed by a subsequence of the
input. -/
theorem coverLoop_decomp :
    ∀ (l cover : List String), ∃ s, coverLoop cover l = cover ++ s ∧ s.Sublist l := by
  intro l
  induction l with
  | nil => intro cover; exact ⟨[], by simp [coverLoop], List.Sublist.refl []⟩
  | cons u rest ih =>
    intro cover
    by_cases hP : (has_code_pattern u && !(cover.contains u)) = true
    · obtain ⟨s, hs, hsub⟩ := ih (cover ++ [u])
      refine ⟨u :: s, ?_, List.Sublist.cons₂ u hsub⟩
      rw [coverLoop, if_pos hP, hs, List.append_assoc]
      rfl
    · obtain ⟨s, hs, hsub⟩ := ih cover
      exact ⟨s, by rw [coverLoop, if_neg hP]; exact hs, List.Sublist.cons u hsub⟩

/-- Count of connection checks under an always-failing probe. -/
theorem connRetryAux_allFail (o : Nat → ConnAttemptOutcome)
    (hfail : ∀ k, o k = ConnAttemptOutcome.probe false) :
    ∀ (remaining attempt checks : Nat),
      connRetryAux o attempt remaining checks = (false, checks + remaining) := by
  intro remaining
  induction remaining with
  | zero => intro a c; rfl
  | succ r ih =>
    intro a c
    have harith : c + 1 + r = c + (r + 1) := by omega
    rw [connRetryAux, hfail a, ih (a + 1) (c + 1), harith]

/- ==================== claim theorems ==================== -/

/-- C1, counterexample: the claim as stated is false for the crawler's
HTTP client.  `CrawlerHttpClient.create_client` mounts the configured
proxy on the whole `httpx` client, so a request whose target host is the
loopback address 127.0.0.1 is still sent through the proxy — rather than
bypassing it as the claim demands. -/
theorem crawler_proxy_not_bypassed_cex :
    ¬ (∀ (proxy url host : String),
        urlparse_hostname url = some host → is_lan_address host = true →
        crawler_request_proxy (create_client_proxies (some proxy)) url = none) := by
  intro h
  exact absurd
    (h "http://proxy.example:7890" "http://127.0.0.1:8080/api" "127.0.0.1"
      (by decide) (by decide))
    (by decide)

/-- C1, amended: per-request proxy bypass for loopback/private/link-local/
multicast and no-proxy-listed hosts exists only in
`DownloaderManager._get_proxies_for_request`; the crawler's HTTP client
(`CrawlerHttpClient.create_client`) attaches its configured proxy to every
request regardless of the target host. -/
theorem proxy_bypass_only_in_downloader :
    ∀ (cfg url np host : String),
      crawler_request_proxy (create_client_proxies (some cfg)) url
        = create_client_proxies (some cfg) ∧
      (urlparse_hostname url = some host → is_lan_address host = true →
        get_proxies_for_request (some cfg) url np = none) ∧
      (should_use_proxy url np = true →
        get_proxies_for_request (some cfg) url np = some cfg) := by
  intro cfg url np host
  refine ⟨rfl, ?_, ?_⟩
  · intro hhost hlan
    unfold get_proxies_for_request should_use_proxy
    rw [hhost]
    simp [hlan]
  · intro huse
    simp [get_proxies_for_request, huse]

theorem proxy_bypass_only_in_downloader_witness :
    get_proxies_for_request (some "http://proxy.example:7890")
      "http://127.0.0.1:8080/api" "localhost,127.0.0.1" = none ∧
    get_proxies_for_request (some "http://proxy.example:7890")
      "http://forum.example.net/" "localhost,127.0.0.1" = some "http://proxy.example:7890" :=
  ⟨(proxy_bypass_only_in_downloader "http://proxy.example:7890" "http://127.0.0.1:8080/api"
      "localhost,127.0.0.1" "127.0.0.1").2.1 (by decide) (by decide),
   (proxy_bypass_only_in_downloader "http://proxy.example:7890" "http://forum.example.net/"
      "localhost,127.0.0.1" "forum.example.net").2.2 (by decide)⟩

/-- C2: a detail page whose visible text contains no magnet URI matching
the canonical grammar and whose anchors have no href starting with the
magnet scheme makes `parse_thread_detail` return `None` — never a record
with an empty magnet list. -/
theorem parse_thread_detail_none_without_magnets :
    ∀ (soup : Soup) (status : Nat) (url : String),
      containsMagnet soup.text.data = false →
      (∀ a ∈ soup.anchors, pyStartsWith a.href "magnet:" = false) →
      parse_thread_detail (FetchOutcome.ok status soup) url = none := by
  intro soup status url hm ha
  have hempty := extract_magnet_links_nil soup hm ha
  simp only [parse_thread_detail, hempty]
  split
  · rfl
  · simp

theorem parse_thread_detail_none_without_magnets_witness :
    parse_thread_detail (FetchOutcome.ok 200 noMagnetSoup) "https://sehuatang.org/thread-1-1-1.html" = none :=
  parse_thread_detail_none_without_magnets noMagnetSoup 200
    "https://sehuatang.org/thread-1-1-1.html" (by decide) (by decide)

set_option maxRecDepth 4000 in
/-- C3, counterexample: magnet deduplication is `list(set(...))`, i.e.
exact string equality.  A page whose text carries the same btih hash once
in lower case and once in upper case yields both spellings in the result:
two distinct entries that are equal up to the letter case of the hash
component, contradicting case-insensitive deduplication. -/
theorem extract_magnet_links_case_cex :
    magnetLowerStr ∈ extract_magnet_links caseSoup ∧
    magnetUpperStr ∈ extract_magnet_links caseSoup ∧
    magnetLowerStr ≠ magnetUpperStr ∧
    pyLower magnetLowerStr = pyLower magnetUpperStr := by
  refine ⟨by decide, by decide, by decide, by decide⟩

/-- C3, amended: the deduplication in `extract_magnet_links` is by exact
string equality — the returned list never contains two identical entries,
but entries differing only in the case of the hash may both appear. -/
theorem extract_magnet_links_nodup :
    ∀ soup : Soup, (extract_magnet_links soup).Nodup := by
  intro soup
  unfold extract_magnet_links pySetList
  exact List.nodup_dedup _

/-- C4: with a connectivity probe that fails on every attempt (and
cookies acquirable), `test_connection_with_retry` performs exactly
`max_cf_retries + 1` connection checks and then returns `False` to its
caller instead of retrying further or raising. -/
theorem test_connection_with_retry_bound :
    ∀ (max_cf_retries : Nat) (o : Nat → ConnAttemptOutcome),
      (∀ k, o k = ConnAttemptOutcome.probe false) →
      test_connection_with_retry o max_cf_retries = (false, max_cf_retries + 1) := by
  intro m o hfail
  unfold test_connection_with_retry
  rw [connRetryAux_allFail o hfail (m + 1) 0 0]
  simp

theorem test_connection_with_retry_bound_witness :
    test_connection_with_retry (fun _ => ConnAttemptOutcome.probe false) 3 = (false, 4) :=
  test_connection_with_retry_bound 3 (fun _ => ConnAttemptOutcome.probe false) (fun _ => rfl)

/-- C5: while a crawl is in flight (`is_running` true), a second start
request on the manager returns the "already running" failure dict
immediately, launches nothing, and leaves the state untouched; the
controller's `crawl_single_theme` likewise returns `[]` at once without
touching its state. -/
theorem second_start_rejected_while_running :
    ∀ (mo : StartOracle) (ms : MgrState) (co : CtrlOracle) (cs : CtrlState)
      (fid : String) (sp ep : Nat) (kw : List String),
      ms.is_running = true → cs.is_running = true →
      start_crawler mo ms fid sp ep kw
        = ({ success := false, message := "爬虫正在运行中", count := none }, ms, []) ∧
      crawl_single_theme co cs fid sp ep kw = ([], cs) := by
  intro mo ms co cs fid sp ep kw hm hc
  constructor
  · unfold start_crawler
    rw [hm]
    rfl
  · unfold crawl_single_theme
    rw [hc]
    rfl

theorem second_start_rejected_while_running_witness :
    start_crawler quietStartOracle { is_running := true } "36" 1 2 []
      = ({ success := false, message := "爬虫正在运行中", count := none },
         { is_running := true }, []) ∧
    crawl_single_theme quietCtrlOracle { is_running := true } "36" 1 2 [] = ([], { is_running := true }) :=
  second_start_rejected_while_running quietStartOracle { is_running := true }
    quietCtrlOracle { is_running := true } "36" 1 2 [] rfl rfl

/-- C6: whenever a structured censorship label matches the combined
title-plus-content text, `check_uncensored` returns exactly the value
determined by that label (`无码` → true, `有码` → false); keyword
matching is consulted only when no structured pattern matches, so a
structured "censored" value yields false even if an "uncensored" keyword
appears elsewhere in the text. -/
theorem check_uncensored_structured_precedence :
    ∀ (title content status : String),
      censoredStatusSearch (title ++ " " ++ content).data = some status →
      check_uncensored title content = (status == "无码") := by
  intro title content status h
  simp only [check_uncensored]
  rw [h]

theorem check_uncensored_structured_precedence_witness :
    check_uncensored "Test" "【是否有码】：有码 无码流出版" = false := by
  rw [check_uncensored_structured_precedence "Test" "【是否有码】：有码 无码流出版" "有码"
    (by decide)]
  decide

/-- C7: the cover-image list returned by `extract_images` never has more
than two entries, however many image URLs match the code pattern. -/
theorem extract_images_cover_cap :
    ∀ soup : Soup, (extract_images soup).cover_images.length ≤ 2 := by
  intro soup
  unfold extract_images
  simp [List.length_take]

/-- C8: whenever the timezone lookup or the cron evaluation raises,
`_calculate_next_run` returns the current time plus one hour instead of
propagating the exception. -/
theorem calculate_next_run_fallback :
    ∀ (tzdb : String → Except Unit Unit) (cronNext : String → Int → Except Unit Int)
      (now : Int) (cron tz : String),
      (tzdb tz = Except.error () ∨ cronNext cron now = Except.error ()) →
      calculate_next_run tzdb cronNext now cron tz = now + 3600 := by
  intro tzdb cronNext now cron tz h
  unfold calculate_next_run
  rcases h with h | h
  · rw [h]
  · cases htz : tzdb tz with
    | error e => rfl
    | ok u => rw [h]

theorem calculate_next_run_fallback_witness :
    calculate_next_run (fun _ => Except.ok ()) (fun _ _ => Except.error ())
      100 "*/5 * * * *" "Asia/Shanghai" = 100 + 3600 :=
  calculate_next_run_fallback (fun _ => Except.ok ()) (fun _ _ => Except.error ())
    100 "*/5 * * * *" "Asia/Shanghai" (Or.inr rfl)

/-- C9: the cover images of `extract_images` are a subsequence of its
all-images list — every cover URL also appears among all images, and the
relative order of all-images is preserved. -/
theorem extract_images_cover_sublist :
    ∀ soup : Soup, ((extract_images soup).cover_images).Sublist ((extract_images soup).all_images) := by
  intro soup
  unfold extract_images
  obtain ⟨s, hs, hsub⟩ :=
    coverLoop_decomp (collectAttach (collectImgs [] soup.imgSelects) soup.attachElems) []
  simp only
  rw [hs]
  simp only [List.nil_append]
  exact (List.take_sublist 2 s).trans hsub

/-- C10: whenever `crawl_single_theme` or `start_crawler` returns from an
admitted run — normal completion, internal exception, or cooperative
stop, i.e. under every oracle — the instance's `is_running` flag is false
again, so a later request is never spuriously rejected as already
running. -/
theorem running_flag_cleared_on_return :
    ∀ (co : CtrlOracle) (cs : CtrlState) (fid : String) (sp ep : Nat) (kw : List String)
      (mo : StartOracle) (ms : MgrState),
      cs.is_running = false → ms.is_running = false →
      (crawl_single_theme co cs fid sp ep kw).2.is_running = false ∧
      (start_crawler mo ms fid sp ep kw).2.1.is_running = false := by
  intro co cs fid sp ep kw mo ms hc hm
  constructor
  · unfold crawl_single_theme
    rw [hc]
    simp only [Bool.false_eq_true, if_false]
    cases co.createClient with
    | error e => rfl
    | ok u => rfl
  · unfold start_crawler
    rw [hm]
    simp only [Bool.false_eq_true, if_false]
    cases mo.ensureCookies with
    | error e => rfl
    | ok b =>
      cases b with
      | false => rfl
      | true =>
        cases mo.connTest with
        | error e => rfl
        | ok b2 =>
          cases b2 with
          | false => rfl
          | true =>
            cases mo.crawl with
            | error e => rfl
            | ok n => rfl

theorem running_flag_cleared_on_return_witness :
    (crawl_single_theme quietCtrlOracle { is_running := false } "36" 1 2 []).2.is_running = false ∧
    (start_crawler quietStartOracle { is_running := false } "36" 1 2 []).2.1.is_running = false :=
  running_flag_cleared_on_return quietCtrlOracle { is_running := false } "36" 1 2 []
    quietStartOracle { is_running := false } rfl rfl

end MagnetBoard
